import Mathlib

/-!
# Verification of the auto-save / file-management core of the Markdown editor

Shallow embedding of `src/core/editor/auto-save.js` (class `AutoSaveManager`)
and of the `fileManager` CRUD layer of `src/composables/editor/useEditor.js`.

Modelling conventions:
* JS strings are Lean `String`; `String.prototype.trim` is modelled by
  `jsTrim` (drop whitespace characters from both ends of the character list).
* Timestamps (`new Date().toISOString()` / `.getTime()`) are modelled by a
  `Nat` clock value `ts` passed explicitly to each operation; the record
  fields `saveTime` / `lastOpenTime` store that value.
* The single `localStorage` slot under the key `md_editor_files` is modelled
  by `StoredBlob`: `missing` (no value, or the empty string, both falsy in
  the JS reads), `corrupt` (a non-empty string that is not valid JSON, on
  which `JSON.parse` throws), or `good files` (a valid serialization of the
  mapping `files`).  `JSON.stringify` of a mapping always yields `good`.
* A JS plain object used as a string-keyed map is an association list
  (`FileStore`) with `lookupFS` / `objSet` / `objDelete`.
* A thrown JS exception is the `JsResult.threw` outcome; every operation
  returns the state as it stands when it returns or when the exception
  escapes (so side effects performed before the throw are kept).
* `setInterval` / `clearInterval` are modelled by a pool of live timer ids
  (`liveTimers`) plus a fresh-id counter; `clearInterval` on a stale id is a
  no-op, as in the browser.  The manager field `interval` is `timer`.
* The `autoSaveManager.value?.` optional calls in `useEditor.js` are made on
  a manager that exists for the whole life of the composable, so the manager
  is always present in the model.
-/

/-- One character of JS whitespace, as tested by `String.prototype.trim`. -/
def isWs (c : Char) : Bool := c.isWhitespace

/-- Drop whitespace from both ends of a character list: the character-level
behaviour of `String.prototype.trim`. -/
def trimChars (l : List Char) : List Char :=
  ((l.dropWhile isWs).reverse.dropWhile isWs).reverse

/-- JS `name.trim()`. -/
def jsTrim (s : String) : String := ⟨trimChars s.data⟩

/-- Every character of the list is whitespace. -/
def allWs (l : List Char) : Prop := ∀ c ∈ l, isWs c = true

/-- A string that is neither empty nor whitespace-only. -/
def nonBlank (v : String) : Prop := ¬ allWs v.data

instance (l : List Char) : Decidable (allWs l) := by
  unfold allWs; infer_instance

instance (v : String) : Decidable (nonBlank v) := by
  unfold nonBlank; infer_instance

/-- One persisted file record: `{ content, saveTime, lastOpenTime }`
(`src/core/editor/auto-save.js`, lines 61–65). -/
structure FileRecord where
  content : String
  saveTime : Nat
  lastOpenTime : Nat
deriving DecidableEq, Repr

/-- The mapping persisted under `md_editor_files`: file name to record,
a JS plain object modelled as an association list. -/
abbrev FileStore := List (String × FileRecord)

/-- Property access `files[name]` on the JS object. -/
def lookupFS : FileStore → String → Option FileRecord
  | [], _ => none
  | (k, v) :: rest, n => if k = n then some v else lookupFS rest n

/-- Property assignment `files[name] = r` on the JS object: overwrite the
existing entry in place, else add one. -/
def objSet : FileStore → String → FileRecord → FileStore
  | [], n, r => [(n, r)]
  | (k, v) :: rest, n, r =>
      if k = n then (n, r) :: rest else (k, v) :: objSet rest n r

/-- `delete files[name]` on the JS object. -/
def objDelete : FileStore → String → FileStore
  | [], _ => []
  | (k, v) :: rest, n =>
      if k = n then objDelete rest n else (k, v) :: objDelete rest n

/-- The `localStorage` slot under the key `md_editor_files`. -/
inductive StoredBlob where
  /-- `getItem` returns `null` (or the stored string is `""`, which every
  read treats identically because `""` is falsy). -/
  | missing
  /-- A non-empty stored string that is not a valid serialization:
  `JSON.parse` throws on it. -/
  | corrupt
  /-- A valid serialization of `files`. -/
  | good (files : FileStore)
deriving DecidableEq, Repr

/-- Outcome of a JS call: a returned value, or an exception escaping. -/
inductive JsResult (α : Type) where
  | ok (a : α)
  | threw
deriving DecidableEq, Repr

/-- The fields of the `AutoSaveManager` instance: `currentFileName` and the
timer handle `interval` (`auto-save.js`, lines 16–18). -/
structure ManagerState where
  currentFileName : Option String
  timer : Option Nat
deriving DecidableEq, Repr

/-- The whole mutable world the core touches: the manager, the editor
buffer (read through the injected `getContent`, written by
`updateContent`), the storage slot, and the live-interval pool. -/
structure SysState where
  mgr : ManagerState
  content : String
  storage : StoredBlob
  liveTimers : List Nat
  nextTimerId : Nat
deriving DecidableEq, Repr

/-- The generated default name `` `未命名文件_${new Date().getTime()}` ``. -/
def genName (ts : Nat) : String := "未命名文件_" ++ toString ts

/-- Manager state right after `new AutoSaveManager(...)`:
`currentFileName = null`, `interval = null`. -/
def initialManager : ManagerState := { currentFileName := none, timer := none }

/-- `setFileName(name)` (`auto-save.js`, lines 87–91):
`if (name && name.trim()) this.currentFileName = name.trim()`. -/
def setFileName (m : ManagerState) (name : String) : ManagerState :=
  if name ≠ "" ∧ jsTrim name ≠ "" then
    { m with currentFileName := some (jsTrim name) }
  else m

/-- `getFileName()` (`auto-save.js`, lines 75–81): lazily assigns the
generated default name when `currentFileName` is unset, then returns it. -/
def getFileName (m : ManagerState) (ts : Nat) : String × ManagerState :=
  match m.currentFileName with
  | some n => (n, m)
  | none => (genName ts, { m with currentFileName := some (genName ts) })

/-- The read `JSON.parse(localStorage.getItem(k) || '{}')` inside `save()`:
missing data defaults to the empty object, corrupt data throws. -/
def parseWithDefault : StoredBlob → JsResult FileStore
  | .missing => .ok []
  | .corrupt => .threw
  | .good files => .ok files

/-- `save()` (`auto-save.js`, lines 50–70): return early on empty content;
otherwise resolve the file name (lazily initializing it), parse the blob
(throwing on corrupt data — there is no try/catch in the source), write the
updated record back.  The state at the moment of a throw keeps the
`currentFileName` mutation already performed by `getFileName()`. -/
def save (s : SysState) (ts : Nat) : SysState × JsResult Unit :=
  if s.content = "" then (s, .ok ())
  else
    match parseWithDefault s.storage with
    | .threw => ({ s with mgr := (getFileName s.mgr ts).2 }, .threw)
    | .ok files =>
        ({ s with
            mgr := (getFileName s.mgr ts).2,
            storage := .good
              (objSet files (getFileName s.mgr ts).1 ⟨s.content, ts, ts⟩) },
         .ok ())

/-- The first line of `start()`:
`if (this.interval) clearInterval(this.interval)` — cancel the prior
interval without nulling the handle field. -/
def clearPrior (s : SysState) : SysState :=
  match s.mgr.timer with
  | some id => { s with liveTimers := s.liveTimers.erase id }
  | none => s

/-- `start()` (`auto-save.js`, lines 24–35): clear any prior interval, run
one immediate `save()`, then arm a fresh repeating interval.  When the
immediate save throws, the exception escapes `start()` before the new
interval is armed, and the `interval` field still holds the old cleared
handle. -/
def start (s : SysState) (ts : Nat) : SysState × JsResult Unit :=
  match save (clearPrior s) ts with
  | (s2, .threw) => (s2, .threw)
  | (s2, .ok _) =>
      ({ s2 with
          mgr := { s2.mgr with timer := some s2.nextTimerId },
          liveTimers := s2.nextTimerId :: s2.liveTimers,
          nextTimerId := s2.nextTimerId + 1 }, .ok ())

/-- `stop()` (`auto-save.js`, lines 40–45): clear the interval and null the
handle; no-op when the handle is already null. -/
def stop (s : SysState) : SysState :=
  match s.mgr.timer with
  | some id =>
      { s with
          mgr := { s.mgr with timer := none },
          liveTimers := s.liveTimers.erase id }
  | none => s

/-- One firing of the armed interval: the callback just calls `save()`; an
exception escaping the callback does not cancel the browser interval. -/
def tick (s : SysState) (ts : Nat) : SysState × JsResult Unit := save s ts

/-- `fileManager.getSavedFiles()` (`useEditor.js`, lines 112–115):
`files ? JSON.parse(files) : {}` — the ternary returns `{}` on a missing
(or empty, hence falsy) value, and `JSON.parse` throws on corrupt data. -/
def getSavedFiles : StoredBlob → JsResult FileStore
  | .missing => .ok []
  | .corrupt => .threw
  | .good files => .ok files

/-- `fileManager.createNewFile(fileName)` (`useEditor.js`, lines 117–124):
pick the given name or a generated default (`fileName || ...`, so the empty
string also falls back), clear the editor, set the manager name, call
`save()`, return the name. -/
def createNewFile (s : SysState) (ts : Nat) (fileName : Option String) :
    SysState × String × JsResult Unit :=
  let name :=
    match fileName with
    | some n => if n = "" then genName ts else n
    | none => genName ts
  let s1 := { s with content := "" }
  let s2 := { s1 with mgr := setFileName s1.mgr name }
  let p := save s2 ts
  (p.1, name, p.2)

/-- `fileManager.openFile(fileName)` (`useEditor.js`, lines 126–132): read
the store (throws on corrupt data), and when the record exists load its
content into the editor and set the manager's file name; else do nothing. -/
def openFile (s : SysState) (fileName : String) : SysState × JsResult Unit :=
  match getSavedFiles s.storage with
  | .threw => (s, .threw)
  | .ok files =>
      match lookupFS files fileName with
      | some r =>
          ({ s with content := r.content, mgr := setFileName s.mgr fileName },
           .ok ())
      | none => (s, .ok ())

/-- `fileManager.renameFile(oldName, newName)` (`useEditor.js`, lines
134–151): equal names fail fast; a missing source fails; otherwise copy the
record under the new name with a refreshed `saveTime`, delete the old
entry, persist, and — comparing `getFileName()` (which lazily assigns a
generated name!) with `oldName` — possibly rebind the manager's name. -/
def renameFile (s : SysState) (ts : Nat) (oldName newName : String) :
    SysState × JsResult Bool :=
  if oldName = newName then (s, .ok false)
  else
    match getSavedFiles s.storage with
    | .threw => (s, .threw)
    | .ok files =>
        match lookupFS files oldName with
        | none => (s, .ok false)
        | some r =>
            let files' :=
              objDelete (objSet files newName { r with saveTime := ts }) oldName
            let p := getFileName s.mgr ts
            let mgr' := if p.1 = oldName then setFileName p.2 newName else p.2
            ({ s with storage := .good files', mgr := mgr' }, .ok true)

/-- The invariant claimed for the manager's file name: unset, or a
non-empty, non-whitespace-only string. -/
def nameInv (m : ManagerState) : Prop :=
  ∀ v, m.currentFileName = some v → nonBlank v

/-- The timer-ownership invariant: the live-interval pool is empty, or
holds exactly the one id recorded in the manager's handle. -/
def timerInv (s : SysState) : Prop :=
  s.liveTimers = [] ∨ ∃ id, s.mgr.timer = some id ∧ s.liveTimers = [id]

/-- The immediate `save()` inside `start()` does not throw: the content is
empty (early return) or the blob is not corrupt. -/
def saveOk (s : SysState) : Prop := s.content = "" ∨ s.storage ≠ .corrupt

/- ### Helper lemmas about whitespace trimming -/

theorem allWs_of_allWs_dropWhile {l : List Char}
    (h : allWs (l.dropWhile isWs)) : allWs l := by
  intro c hc
  rw [← List.takeWhile_append_dropWhile (p := isWs) (l := l)] at hc
  rcases List.mem_append.1 hc with h1 | h2
  · exact List.mem_takeWhile_imp h1
  · exact h c h2

theorem allWs_reverse {l : List Char} (h : allWs l.reverse) : allWs l := by
  intro c hc
  exact h c (List.mem_reverse.2 hc)

theorem allWs_of_allWs_trimChars {l : List Char}
    (h : allWs (trimChars l)) : allWs l := by
  unfold trimChars at h
  exact allWs_of_allWs_dropWhile
    (allWs_reverse (allWs_of_allWs_dropWhile (allWs_reverse h)))

theorem trimChars_eq_nil_iff {l : List Char} : trimChars l = [] ↔ allWs l := by
  constructor
  · intro h
    apply allWs_of_allWs_trimChars
    rw [h]; intro c hc; cases hc
  · intro h
    unfold trimChars
    have h1 : l.dropWhile isWs = [] := List.dropWhile_eq_nil_iff.2 h
    rw [h1]; rfl

theorem jsTrim_eq_empty_iff {s : String} : jsTrim s = "" ↔ allWs s.data := by
  unfold jsTrim
  rw [← trimChars_eq_nil_iff]
  constructor
  · intro h
    exact congrArg String.data h
  · intro h; rw [h]

theorem nonBlank_jsTrim {s : String} (h : jsTrim s ≠ "") :
    nonBlank (jsTrim s) := by
  intro hall
  apply h
  rw [jsTrim_eq_empty_iff]
  exact allWs_of_allWs_trimChars hall

theorem nonBlank_of_jsTrim_ne {s : String} (h : jsTrim s ≠ "") :
    nonBlank s := by
  intro hall
  exact h (jsTrim_eq_empty_iff.2 hall)

/- ### Helper lemmas about the generated default file name -/

theorem digitChar_ge_16 {n : Nat} (h : 16 ≤ n) : Nat.digitChar n = '*' := by
  have h0 : n ≠ 0 := by omega
  have h1 : n ≠ 1 := by omega
  have h2 : n ≠ 2 := by omega
  have h3 : n ≠ 3 := by omega
  have h4 : n ≠ 4 := by omega
  have h5 : n ≠ 5 := by omega
  have h6 : n ≠ 6 := by omega
  have h7 : n ≠ 7 := by omega
  have h8 : n ≠ 8 := by omega
  have h9 : n ≠ 9 := by omega
  have h10 : n ≠ 10 := by omega
  have h11 : n ≠ 11 := by omega
  have h12 : n ≠ 12 := by omega
  have h13 : n ≠ 13 := by omega
  have h14 : n ≠ 14 := by omega
  have h15 : n ≠ 15 := by omega
  simp [Nat.digitChar, h0, h1, h2, h3, h4, h5, h6, h7, h8, h9, h10, h11,
    h12, h13, h14, h15]

theorem digitChar_not_ws (n : Nat) : isWs (Nat.digitChar n) = false := by
  by_cases h : n < 16
  · interval_cases n <;> decide
  · rw [digitChar_ge_16 (by omega)]
    decide

theorem toDigitsCore_mem (b : Nat) :
    ∀ (fuel n : Nat) (acc : List Char) (c : Char),
      c ∈ Nat.toDigitsCore b fuel n acc →
      c ∈ acc ∨ ∃ k, c = Nat.digitChar k := by
  intro fuel
  induction fuel with
  | zero => intro n acc c h; exact Or.inl h
  | succ f ih =>
    intro n acc c h
    simp only [Nat.toDigitsCore] at h
    split at h
    · rcases List.mem_cons.1 h with h | h
      · exact Or.inr ⟨n % b, h⟩
      · exact Or.inl h
    · rcases ih (n / b) (Nat.digitChar (n % b) :: acc) c h with h | h
      · rcases List.mem_cons.1 h with h | h
        · exact Or.inr ⟨n % b, h⟩
        · exact Or.inl h
      · exact Or.inr h

theorem toDigitsCore_ne_nil (b : Nat) :
    ∀ (fuel n : Nat) (acc : List Char), acc ≠ [] →
      Nat.toDigitsCore b fuel n acc ≠ [] := by
  intro fuel
  induction fuel with
  | zero => intro n acc h; exact h
  | succ f ih =>
    intro n acc h
    simp only [Nat.toDigitsCore]
    split
    · simp
    · exact ih (n / b) _ (by simp)

theorem toDigits_ne_nil (b n : Nat) : Nat.toDigits b n ≠ [] := by
  unfold Nat.toDigits
  simp only [Nat.toDigitsCore]
  split
  · simp
  · exact toDigitsCore_ne_nil b n (n / b) _ (by simp)

theorem repr_data (n : Nat) : (Nat.repr n).data = Nat.toDigits 10 n := rfl

theorem repr_not_ws (n : Nat) : ∀ c ∈ (Nat.repr n).data, isWs c = false := by
  intro c hc
  rw [repr_data] at hc
  rcases toDigitsCore_mem 10 (n + 1) n [] c hc with h | ⟨k, hk⟩
  · cases h
  · rw [hk]; exact digitChar_not_ws k

theorem genName_data (ts : Nat) :
    (genName ts).data = "未命名文件_".data ++ (Nat.repr ts).data := rfl

theorem genName_head (ts : Nat) : (genName ts).data.head? = some '未' := rfl

theorem dropWhile_eq_self_of_head {l : List Char}
    (h : ∀ c, l.head? = some c → isWs c = false) : l.dropWhile isWs = l := by
  cases l with
  | nil => rfl
  | cons a t =>
    have ha := h a rfl
    simp [List.dropWhile_cons, ha]

theorem trimChars_eq_self {l : List Char}
    (h1 : ∀ c, l.head? = some c → isWs c = false)
    (h2 : ∀ c, l.getLast? = some c → isWs c = false) :
    trimChars l = l := by
  unfold trimChars
  rw [dropWhile_eq_self_of_head h1]
  rw [dropWhile_eq_self_of_head
    (by intro c hc; rw [List.head?_reverse] at hc; exact h2 c hc)]
  exact List.reverse_reverse l

theorem genName_getLast (ts : Nat) :
    ∀ c, (genName ts).data.getLast? = some c → isWs c = false := by
  intro c hc
  rw [genName_data, List.getLast?_append_of_ne_nil] at hc
  · exact repr_not_ws ts c (List.mem_of_getLast?_eq_some hc)
  · rw [repr_data]; exact toDigits_ne_nil 10 ts

theorem jsTrim_genName (ts : Nat) : jsTrim (genName ts) = genName ts := by
  unfold jsTrim
  have h : trimChars (genName ts).data = (genName ts).data := by
    apply trimChars_eq_self
    · intro c hc
      rw [genName_head ts] at hc
      cases hc
      rfl
    · exact genName_getLast ts
  rw [h]

theorem nonBlank_genName (ts : Nat) : nonBlank (genName ts) := by
  intro hall
  have hm : '未' ∈ (genName ts).data := by
    rw [genName_data]
    exact List.mem_append_left _ (by decide)
  exact (by decide : ¬ isWs '未' = true) (hall '未' hm)

theorem genName_ne_empty (ts : Nat) : genName ts ≠ "" := by
  intro h
  have h2 : (genName ts).data.head? = ("" : String).data.head? := by rw [h]
  rw [genName_head ts] at h2
  cases h2

theorem jsTrim_genName_ne_empty (ts : Nat) : jsTrim (genName ts) ≠ "" := by
  rw [jsTrim_genName]
  exact genName_ne_empty ts
/- ### Helper lemmas about the JS-object operations -/

theorem lookupFS_objSet_self (fs : FileStore) (n : String) (r : FileRecord) :
    lookupFS (objSet fs n r) n = some r := by
  induction fs with
  | nil => simp [objSet, lookupFS]
  | cons kv rest ih =>
    obtain ⟨k, v⟩ := kv
    by_cases h : k = n
    · simp [objSet, h, lookupFS]
    · simp [objSet, h, lookupFS, ih]

theorem lookupFS_objSet_ne (fs : FileStore) (n m : String) (r : FileRecord)
    (h : m ≠ n) : lookupFS (objSet fs n r) m = lookupFS fs m := by
  have hnm : n ≠ m := Ne.symm h
  induction fs with
  | nil => simp [objSet, lookupFS, hnm]
  | cons kv rest ih =>
    obtain ⟨k, v⟩ := kv
    by_cases hk : k = n
    · subst hk
      simp [objSet, lookupFS, hnm]
    · by_cases hm : k = m
      · subst hm
        simp [objSet, hk, lookupFS, hnm]
      · simp [objSet, hk, lookupFS, hm, ih]

theorem lookupFS_objDelete_self (fs : FileStore) (n : String) :
    lookupFS (objDelete fs n) n = none := by
  induction fs with
  | nil => simp [objDelete, lookupFS]
  | cons kv rest ih =>
    obtain ⟨k, v⟩ := kv
    by_cases h : k = n
    · simp [objDelete, h, ih]
    · simp [objDelete, h, lookupFS, ih]

theorem lookupFS_objDelete_ne (fs : FileStore) (n m : String) (h : m ≠ n) :
    lookupFS (objDelete fs n) m = lookupFS fs m := by
  have hnm : n ≠ m := Ne.symm h
  induction fs with
  | nil => simp [objDelete]
  | cons kv rest ih =>
    obtain ⟨k, v⟩ := kv
    by_cases hk : k = n
    · subst hk
      simp [objDelete, lookupFS, hnm, ih]
    · by_cases hm : k = m
      · subst hm
        simp [objDelete, hk, lookupFS]
      · simp [objDelete, hk, lookupFS, hm, ih]

/- ### Frame lemmas: which fields each operation can touch -/

theorem setFileName_timer (m : ManagerState) (name : String) :
    (setFileName m name).timer = m.timer := by
  unfold setFileName
  split <;> rfl

theorem getFileName_timer (m : ManagerState) (ts : Nat) :
    (getFileName m ts).2.timer = m.timer := by
  unfold getFileName
  cases m.currentFileName <;> rfl

theorem save_frame (s : SysState) (ts : Nat) :
    (save s ts).1.liveTimers = s.liveTimers ∧
    (save s ts).1.nextTimerId = s.nextTimerId ∧
    (save s ts).1.mgr.timer = s.mgr.timer ∧
    (save s ts).1.content = s.content := by
  unfold save
  split
  · simp
  · cases s.storage <;> simp [parseWithDefault, getFileName_timer]

theorem clearPrior_frame (s : SysState) :
    (clearPrior s).mgr = s.mgr ∧ (clearPrior s).content = s.content ∧
    (clearPrior s).storage = s.storage ∧
    (clearPrior s).nextTimerId = s.nextTimerId := by
  unfold clearPrior
  cases s.mgr.timer <;> simp

/- ### Preservation of the file-name invariant -/

theorem nameInv_of_eq {m m' : ManagerState} (h : nameInv m)
    (he : m'.currentFileName = m.currentFileName) : nameInv m' := by
  intro v hv
  exact h v (he ▸ hv)

theorem nameInv_setFileName {m : ManagerState} (h : nameInv m)
    (name : String) : nameInv (setFileName m name) := by
  unfold setFileName
  split
  · rename_i hc
    intro v hv
    simp only [Option.some.injEq] at hv
    rw [← hv]
    exact nonBlank_jsTrim hc.2
  · exact h

theorem nameInv_getFileName {m : ManagerState} (h : nameInv m) (ts : Nat) :
    nameInv (getFileName m ts).2 := by
  unfold getFileName
  cases hm : m.currentFileName with
  | some n => exact h
  | none =>
    intro v hv
    simp only [Option.some.injEq] at hv
    rw [← hv]
    exact nonBlank_genName ts

theorem nameInv_save {s : SysState} (h : nameInv s.mgr) (ts : Nat) :
    nameInv (save s ts).1.mgr := by
  unfold save
  split
  · exact h
  · cases s.storage <;> simp only [parseWithDefault] <;>
      exact nameInv_getFileName h ts

theorem nameInv_start {s : SysState} (h : nameInv s.mgr) (ts : Nat) :
    nameInv (start s ts).1.mgr := by
  have hclear : nameInv (clearPrior s).mgr := by
    rw [(clearPrior_frame s).1]; exact h
  have hsave : nameInv (save (clearPrior s) ts).1.mgr :=
    nameInv_save hclear ts
  unfold start
  split
  · rename_i s2 heq
    exact nameInv_of_eq hsave (by rw [heq])
  · rename_i s2 a heq
    refine nameInv_of_eq hsave ?_
    show s2.mgr.currentFileName = _
    rw [heq]

theorem nameInv_stop {s : SysState} (h : nameInv s.mgr) :
    nameInv (stop s).mgr := by
  unfold stop
  cases s.mgr.timer with
  | some id => exact nameInv_of_eq h rfl
  | none => exact h

theorem nameInv_tick {s : SysState} (h : nameInv s.mgr) (ts : Nat) :
    nameInv (tick s ts).1.mgr := nameInv_save h ts

theorem nameInv_openFile {s : SysState} (h : nameInv s.mgr) (name : String) :
    nameInv (openFile s name).1.mgr := by
  unfold openFile
  cases s.storage <;> simp only [getSavedFiles]
  · cases hl : lookupFS [] name
    · exact h
    · exact nameInv_setFileName h name
  · exact h
  · rename_i files
    cases hl : lookupFS files name
    · exact h
    · exact nameInv_setFileName h name

theorem nameInv_createNewFile {s : SysState} (h : nameInv s.mgr) (ts : Nat)
    (fileName : Option String) :
    nameInv (createNewFile s ts fileName).1.mgr := by
  unfold createNewFile
  exact nameInv_save (nameInv_setFileName h _) ts

theorem nameInv_renameFile {s : SysState} (h : nameInv s.mgr) (ts : Nat)
    (oldName newName : String) :
    nameInv (renameFile s ts oldName newName).1.mgr := by
  unfold renameFile
  split
  · exact h
  · split
    · exact h
    · split
      · exact h
      · dsimp only
        split
        · exact nameInv_setFileName (nameInv_getFileName h ts) newName
        · exact nameInv_getFileName h ts

/- ### Timer-ownership lemmas -/

theorem timerInv_of_fields {s s' : SysState} (h : timerInv s)
    (ht : s'.mgr.timer = s.mgr.timer) (hl : s'.liveTimers = s.liveTimers) :
    timerInv s' := by
  rcases h with h | ⟨id, h1, h2⟩
  · exact Or.inl (by rw [hl, h])
  · exact Or.inr ⟨id, by rw [ht, h1], by rw [hl, h2]⟩

theorem clearPrior_live_nil {s : SysState} (h : timerInv s) :
    (clearPrior s).liveTimers = [] := by
  unfold clearPrior
  rcases h with h | ⟨id, h1, h2⟩
  · cases ht : s.mgr.timer <;> simp [h]
  · rw [h1]
    simp [h2]

theorem save_okOut {s : SysState} (h : saveOk s) (ts : Nat) :
    (save s ts).2 = .ok () := by
  unfold save
  split
  · rfl
  · rcases h with h | h
    · simp_all
    · cases hst : s.storage <;> simp [parseWithDefault]
      exact h hst

theorem save_storage (s : SysState) (ts : Nat) :
    (save s ts).1.storage = s.storage ∨
      ∃ f, (save s ts).1.storage = .good f := by
  unfold save
  split
  · exact Or.inl rfl
  · cases s.storage <;> simp [parseWithDefault]

theorem saveOk_clearPrior {s : SysState} (h : saveOk s) :
    saveOk (clearPrior s) := by
  obtain ⟨h1, h2, h3, h4⟩ := clearPrior_frame s
  unfold saveOk
  rw [h2, h3]
  exact h

theorem saveOk_save {s : SysState} (h : saveOk s) (ts : Nat) :
    saveOk (save s ts).1 := by
  have hc := (save_frame s ts).2.2.2
  rcases h with h | h
  · exact Or.inl (by rw [hc, h])
  · rcases save_storage s ts with hs | ⟨f, hs⟩
    · exact Or.inr (by rw [hs]; exact h)
    · exact Or.inr (by rw [hs]; intro hcon; cases hcon)

theorem start_eq_of_ok {s : SysState} {ts : Nat}
    (h : (save (clearPrior s) ts).2 = .ok ()) :
    start s ts =
      ({ (save (clearPrior s) ts).1 with
          mgr := { (save (clearPrior s) ts).1.mgr with
                    timer := some (save (clearPrior s) ts).1.nextTimerId },
          liveTimers := (save (clearPrior s) ts).1.nextTimerId ::
            (save (clearPrior s) ts).1.liveTimers,
          nextTimerId := (save (clearPrior s) ts).1.nextTimerId + 1 },
       .ok ()) := by
  unfold start
  split
  · rename_i s2 heq
    rw [heq] at h
    cases h
  · rename_i s2 a heq
    rw [heq]

theorem start_live_of_ok {s : SysState} (hinv : timerInv s) (hok : saveOk s)
    (ts : Nat) :
    (start s ts).1.liveTimers =
      [(save (clearPrior s) ts).1.nextTimerId] := by
  rw [start_eq_of_ok (save_okOut (saveOk_clearPrior hok) ts)]
  have hl : (save (clearPrior s) ts).1.liveTimers = [] := by
    rw [(save_frame (clearPrior s) ts).1]
    exact clearPrior_live_nil hinv
  simp [hl]

theorem timerInv_start {s : SysState} (h : timerInv s) (ts : Nat) :
    timerInv (start s ts).1 := by
  have hl : (save (clearPrior s) ts).1.liveTimers = [] := by
    rw [(save_frame (clearPrior s) ts).1]
    exact clearPrior_live_nil h
  unfold start
  split
  · rename_i s2 heq
    refine Or.inl ?_
    show s2.liveTimers = []
    rw [show s2 = (save (clearPrior s) ts).1 from by rw [heq]]
    exact hl
  · rename_i s2 a heq
    refine Or.inr ⟨s2.nextTimerId, rfl, ?_⟩
    show s2.nextTimerId :: s2.liveTimers = [s2.nextTimerId]
    rw [show s2 = (save (clearPrior s) ts).1 from by rw [heq]]
    rw [hl]

theorem timerInv_stop {s : SysState} (h : timerInv s) : timerInv (stop s) := by
  unfold stop
  rcases h with h | ⟨id, h1, h2⟩
  · cases ht : s.mgr.timer
    · exact Or.inl h
    · exact Or.inl (by simp [h])
  · rw [h1]
    refine Or.inl ?_
    simp [h2]

theorem timerInv_save {s : SysState} (h : timerInv s) (ts : Nat) :
    timerInv (save s ts).1 := by
  obtain ⟨h1, _, h3, _⟩ := save_frame s ts
  exact timerInv_of_fields h h3 h1

theorem timerInv_tick {s : SysState} (h : timerInv s) (ts : Nat) :
    timerInv (tick s ts).1 := timerInv_save h ts

theorem openFile_timers (s : SysState) (name : String) :
    (openFile s name).1.liveTimers = s.liveTimers ∧
    (openFile s name).1.mgr.timer = s.mgr.timer := by
  unfold openFile
  cases s.storage <;> simp only [getSavedFiles]
  · cases lookupFS [] name <;> simp [setFileName_timer]
  · simp
  · rename_i files
    cases lookupFS files name <;> simp [setFileName_timer]

theorem createNewFile_timers (s : SysState) (ts : Nat)
    (fileName : Option String) :
    (createNewFile s ts fileName).1.liveTimers = s.liveTimers ∧
    (createNewFile s ts fileName).1.mgr.timer = s.mgr.timer := by
  unfold createNewFile
  have h := save_frame
    { s with content := "",
             mgr := setFileName s.mgr (match fileName with
               | some n => if n = "" then genName ts else n
               | none => genName ts) } ts
  refine ⟨h.1, ?_⟩
  rw [h.2.2.1]
  exact setFileName_timer _ _

theorem renameFile_timers (s : SysState) (ts : Nat) (oldName newName : String) :
    (renameFile s ts oldName newName).1.liveTimers = s.liveTimers ∧
    (renameFile s ts oldName newName).1.mgr.timer = s.mgr.timer := by
  unfold renameFile
  split
  · simp
  · cases s.storage <;> simp only [getSavedFiles]
    · cases lookupFS [] oldName <;>
        simp [setFileName_timer, getFileName_timer]
      split <;> simp [setFileName_timer, getFileName_timer]
    · simp
    · rename_i files
      cases lookupFS files oldName <;>
        simp [setFileName_timer, getFileName_timer]
      split <;> simp [setFileName_timer, getFileName_timer]

theorem timerInv_openFile {s : SysState} (h : timerInv s) (name : String) :
    timerInv (openFile s name).1 :=
  timerInv_of_fields h (openFile_timers s name).2 (openFile_timers s name).1

theorem timerInv_createNewFile {s : SysState} (h : timerInv s) (ts : Nat)
    (fileName : Option String) : timerInv (createNewFile s ts fileName).1 :=
  timerInv_of_fields h (createNewFile_timers s ts fileName).2
    (createNewFile_timers s ts fileName).1

theorem timerInv_renameFile {s : SysState} (h : timerInv s) (ts : Nat)
    (oldName newName : String) : timerInv (renameFile s ts oldName newName).1 :=
  timerInv_of_fields h (renameFile_timers s ts oldName newName).2
    (renameFile_timers s ts oldName newName).1

theorem saveOk_start {s : SysState} (h : saveOk s) (ts : Nat) :
    saveOk (start s ts).1 := by
  have h2 : saveOk (save (clearPrior s) ts).1 :=
    saveOk_save (saveOk_clearPrior h) ts
  unfold start
  split
  · rename_i s2 heq
    rw [show s2 = (save (clearPrior s) ts).1 from by rw [heq]]
    exact h2
  · rename_i s2 a heq
    have hs2 : s2 = (save (clearPrior s) ts).1 := by rw [heq]
    subst hs2
    rcases h2 with h2 | h2
    · exact Or.inl h2
    · exact Or.inr h2
/- ### Characterization lemmas for the operations -/

theorem setFileName_set {m : ManagerState} {name : String}
    (h1 : name ≠ "") (h2 : jsTrim name ≠ "") :
    setFileName m name = { m with currentFileName := some (jsTrim name) } := by
  unfold setFileName
  rw [if_pos ⟨h1, h2⟩]

theorem setFileName_noop {m : ManagerState} {name : String}
    (h : name = "" ∨ jsTrim name = "") : setFileName m name = m := by
  unfold setFileName
  rw [if_neg]
  intro hc
  rcases h with h | h
  · exact hc.1 h
  · exact hc.2 h

theorem getFileName_of_some {m : ManagerState} {f : String} (ts : Nat)
    (h : m.currentFileName = some f) : getFileName m ts = (f, m) := by
  unfold getFileName
  rw [h]

theorem getFileName_of_none {m : ManagerState} (ts : Nat)
    (h : m.currentFileName = none) :
    getFileName m ts = (genName ts, { m with currentFileName := some (genName ts) }) := by
  unfold getFileName
  rw [h]

theorem save_empty_eq {s : SysState} (ts : Nat) (h : s.content = "") :
    save s ts = (s, .ok ()) := by
  unfold save
  rw [if_pos h]

theorem storage_of_getSavedFiles {b : StoredBlob} {files : FileStore}
    (h : getSavedFiles b = .ok files) :
    parseWithDefault b = .ok files ∧ b ≠ .corrupt := by
  cases b with
  | missing =>
    refine ⟨?_, by intro hc; cases hc⟩
    simp only [getSavedFiles, JsResult.ok.injEq] at h
    rw [← h]; rfl
  | corrupt => cases h
  | good f =>
    refine ⟨?_, by intro hc; cases hc⟩
    simp only [getSavedFiles, JsResult.ok.injEq] at h
    rw [← h]; rfl

theorem save_named_eq {s : SysState} {f : String} {files : FileStore} (ts : Nat)
    (hc : s.content ≠ "") (hf : s.mgr.currentFileName = some f)
    (hs : getSavedFiles s.storage = .ok files) :
    save s ts =
      ({ s with storage := .good (objSet files f ⟨s.content, ts, ts⟩) },
       .ok ()) := by
  unfold save
  rw [if_neg hc, (storage_of_getSavedFiles hs).1]
  dsimp only
  rw [getFileName_of_some ts hf]

theorem openFile_found {s : SysState} {name : String} {files : FileStore}
    {r : FileRecord}
    (hs : getSavedFiles s.storage = .ok files)
    (hl : lookupFS files name = some r) :
    openFile s name =
      ({ s with content := r.content, mgr := setFileName s.mgr name },
       .ok ()) := by
  unfold openFile
  rw [hs]
  dsimp only
  rw [hl]

theorem openFile_absent {s : SysState} {name : String} {files : FileStore}
    (hs : getSavedFiles s.storage = .ok files)
    (hl : lookupFS files name = none) :
    openFile s name = (s, .ok ()) := by
  unfold openFile
  rw [hs]
  dsimp only
  rw [hl]

theorem renameFile_same {s : SysState} (ts : Nat) {oldName newName : String}
    (h : oldName = newName) : renameFile s ts oldName newName = (s, .ok false) := by
  unfold renameFile
  rw [if_pos h]

theorem renameFile_absent {s : SysState} (ts : Nat) {oldName newName : String}
    {files : FileStore}
    (hne : oldName ≠ newName)
    (hs : getSavedFiles s.storage = .ok files)
    (hl : lookupFS files oldName = none) :
    renameFile s ts oldName newName = (s, .ok false) := by
  unfold renameFile
  rw [if_neg hne, hs]
  dsimp only
  rw [hl]

theorem renameFile_success {s : SysState} (ts : Nat) {oldName newName : String}
    {files : FileStore} {r : FileRecord}
    (hne : oldName ≠ newName)
    (hs : getSavedFiles s.storage = .ok files)
    (hl : lookupFS files oldName = some r) :
    renameFile s ts oldName newName =
      ({ s with
          storage := .good
            (objDelete (objSet files newName { r with saveTime := ts }) oldName),
          mgr :=
            if (getFileName s.mgr ts).1 = oldName
            then setFileName (getFileName s.mgr ts).2 newName
            else (getFileName s.mgr ts).2 },
       .ok true) := by
  unfold renameFile
  rw [if_neg hne, hs]
  dsimp only
  rw [hl]
/- ### Additional small lemmas used by the claim theorems -/

theorem stop_clears {s : SysState} (h : timerInv s) :
    (stop s).mgr.timer = none ∧ (stop s).liveTimers = [] := by
  unfold stop
  rcases h with h | ⟨id, h1, h2⟩
  · cases ht : s.mgr.timer
    · exact ⟨ht, h⟩
    · exact ⟨rfl, by rw [h]; rfl⟩
  · rw [h1]
    refine ⟨rfl, ?_⟩
    rw [h2]
    simp

theorem stop_noop {s : SysState} (h : s.mgr.timer = none) : stop s = s := by
  unfold stop
  rw [h]

/- ### The claims -/

/-- C6: for every store state and in every manager state, when the injected
content accessor returns the empty string, save() is a no-op: the entire
system state (store included) is unchanged and no record is created or
overwritten. -/
theorem save_empty_content_noop (s : SysState) (ts : Nat)
    (h : s.content = "") : save s ts = (s, .ok ()) :=
  save_empty_eq ts h

/-- Witness for C6 at a concrete state holding one record. -/
theorem save_empty_content_noop_witness :
    save
      { mgr := { currentFileName := some "a", timer := none }, content := "",
        storage := .good
          [("a", { content := "h", saveTime := 0, lastOpenTime := 0 })],
        liveTimers := [], nextTimerId := 0 } 9 =
      ({ mgr := { currentFileName := some "a", timer := none }, content := "",
         storage := .good
           [("a", { content := "h", saveTime := 0, lastOpenTime := 0 })],
         liveTimers := [], nextTimerId := 0 }, .ok ()) :=
  save_empty_content_noop _ 9 rfl

/-- C2: reading the store returns the empty mapping on a missing blob, but
on a corrupt (present, non-empty, unparseable) blob the JSON.parse call
inside getSavedFiles throws instead of returning the empty mapping, so the
claim that corruption never throws to the caller is contradicted by the
code. -/
theorem getSavedFiles_corrupt_behavior :
    getSavedFiles StoredBlob.missing = .ok [] ∧
    getSavedFiles StoredBlob.corrupt = .threw :=
  ⟨rfl, rfl⟩

/-- C3: with a corrupt blob and non-empty content, save() propagates the
parse exception instead of catching it, and the tick is not free of state
change: currentFileName has already been lazily assigned by getFileName()
before the throw.  The armed interval itself does survive (liveTimers is
untouched). -/
theorem save_corrupt_behavior :
    (save
        { mgr := { currentFileName := none, timer := some 6 }, content := "x",
          storage := .corrupt, liveTimers := [6], nextTimerId := 7 } 3).2 =
      .threw ∧
    (save
        { mgr := { currentFileName := none, timer := some 6 }, content := "x",
          storage := .corrupt, liveTimers := [6], nextTimerId := 7 } 3).1.mgr.currentFileName =
      some (genName 3) ∧
    (save
        { mgr := { currentFileName := none, timer := some 6 }, content := "x",
          storage := .corrupt, liveTimers := [6], nextTimerId := 7 } 3).1.liveTimers =
      [6] :=
  ⟨rfl, rfl, rfl⟩

/-- C4: renameFile returns false and changes nothing when the source name
is absent or the two names are equal; otherwise it re-keys the record with
a refreshed saveTime (content and lastOpenTime preserved), drops the old
key, persists, and returns true. -/
theorem renameFile_spec (s : SysState) (ts : Nat) (oldName newName : String)
    (files : FileStore) (hs : getSavedFiles s.storage = .ok files) :
    ((oldName = newName ∨ lookupFS files oldName = none) →
        renameFile s ts oldName newName = (s, .ok false)) ∧
    (∀ r, lookupFS files oldName = some r → oldName ≠ newName →
        (renameFile s ts oldName newName).2 = .ok true ∧
        (renameFile s ts oldName newName).1.storage =
          .good (objDelete (objSet files newName { r with saveTime := ts })
            oldName) ∧
        lookupFS (objDelete (objSet files newName { r with saveTime := ts })
            oldName) newName =
          some { content := r.content, saveTime := ts,
                 lastOpenTime := r.lastOpenTime } ∧
        lookupFS (objDelete (objSet files newName { r with saveTime := ts })
            oldName) oldName = none) := by
  constructor
  · intro h
    rcases h with h | h
    · exact renameFile_same ts h
    · by_cases he : oldName = newName
      · exact renameFile_same ts he
      · exact renameFile_absent ts he hs h
  · intro r hl hne
    rw [renameFile_success ts hne hs hl]
    refine ⟨rfl, rfl, ?_, lookupFS_objDelete_self _ _⟩
    rw [lookupFS_objDelete_ne _ _ _ (Ne.symm hne)]
    exact lookupFS_objSet_self _ _ _

/-- Witness for C4: the no-op rename with equal names, and a successful
rename, both at a concrete one-record store. -/
theorem renameFile_spec_witness :
    renameFile
      { mgr := { currentFileName := some "a", timer := none }, content := "x",
        storage := .good
          [("a", { content := "h", saveTime := 0, lastOpenTime := 0 })],
        liveTimers := [], nextTimerId := 0 } 5 "a" "a" =
      ({ mgr := { currentFileName := some "a", timer := none }, content := "x",
         storage := .good
           [("a", { content := "h", saveTime := 0, lastOpenTime := 0 })],
         liveTimers := [], nextTimerId := 0 }, .ok false) ∧
    (renameFile
      { mgr := { currentFileName := some "a", timer := none }, content := "x",
        storage := .good
          [("a", { content := "h", saveTime := 0, lastOpenTime := 0 })],
        liveTimers := [], nextTimerId := 0 } 5 "a" "b").2 = .ok true :=
  ⟨(renameFile_spec
      { mgr := { currentFileName := some "a", timer := none }, content := "x",
        storage := .good
          [("a", { content := "h", saveTime := 0, lastOpenTime := 0 })],
        liveTimers := [], nextTimerId := 0 } 5 "a" "a"
      [("a", { content := "h", saveTime := 0, lastOpenTime := 0 })] rfl).1
     (Or.inl rfl),
   ((renameFile_spec
      { mgr := { currentFileName := some "a", timer := none }, content := "x",
        storage := .good
          [("a", { content := "h", saveTime := 0, lastOpenTime := 0 })],
        liveTimers := [], nextTimerId := 0 } 5 "a" "b"
      [("a", { content := "h", saveTime := 0, lastOpenTime := 0 })] rfl).2
     { content := "h", saveTime := 0, lastOpenTime := 0 } rfl
     (by decide)).1⟩

/-- Counterexample for C1: on a fresh (missing) store, createNewFile() with
no argument leaves the storage slot untouched — the forced save hits the
empty-content guard, so no record appears under the generated name and the
blob is still missing.  The second conjunct shows the store read after the
call yields the empty mapping. -/
theorem createNewFile_fresh_store_counterexample :
    (createNewFile
        { mgr := { currentFileName := none, timer := none },
          content := "hello", storage := .missing, liveTimers := [],
          nextTimerId := 0 } 0 none).1.storage = StoredBlob.missing ∧
    getSavedFiles
      (createNewFile
        { mgr := { currentFileName := none, timer := none },
          content := "hello", storage := .missing, liveTimers := [],
          nextTimerId := 0 } 0 none).1.storage = .ok [] :=
  ⟨rfl, rfl⟩

/-- C1 (amended): for every state, createNewFile() generates the default
name, clears the content, rebinds the manager's current file name to the
new name, and calls save(); but since the content was just cleared, the
empty-content guard makes that save a no-op, so the store is left exactly
as it was and gains no record under the new name. -/
theorem createNewFile_amended_spec (s : SysState) (ts : Nat) :
    (createNewFile s ts none).2.1 = genName ts ∧
    (createNewFile s ts none).2.2 = .ok () ∧
    (createNewFile s ts none).1.content = "" ∧
    (createNewFile s ts none).1.mgr.currentFileName = some (genName ts) ∧
    (createNewFile s ts none).1.storage = s.storage := by
  have hset : setFileName s.mgr (genName ts) =
      { s.mgr with currentFileName := some (genName ts) } := by
    rw [setFileName_set (genName_ne_empty ts) (jsTrim_genName_ne_empty ts),
      jsTrim_genName]
  unfold createNewFile
  dsimp only
  rw [save_empty_eq ts rfl]
  refine ⟨rfl, rfl, rfl, ?_, rfl⟩
  dsimp only
  rw [hset]

/-- C5: saving non-empty content x under the current file name f and then
opening f loads x back into the editor and rebinds the current file name
to f; opening a name absent from the store is a complete no-op. -/
theorem save_then_open_spec :
    (∀ (s : SysState) (ts : Nat) (x f : String) (files : FileStore),
      s.content = x → x ≠ "" → s.mgr.currentFileName = some f →
      jsTrim f = f → f ≠ "" → getSavedFiles s.storage = .ok files →
      (save s ts).2 = .ok () ∧
      (openFile (save s ts).1 f).2 = .ok () ∧
      (openFile (save s ts).1 f).1.content = x ∧
      (openFile (save s ts).1 f).1.mgr.currentFileName = some f) ∧
    (∀ (s : SysState) (name : String) (files : FileStore),
      getSavedFiles s.storage = .ok files → lookupFS files name = none →
      openFile s name = (s, .ok ())) := by
  constructor
  · intro s ts x f files hx hne hf htrim hfne hs
    subst hx
    rw [save_named_eq ts hne hf hs]
    have hs2 : getSavedFiles
        (StoredBlob.good (objSet files f ⟨s.content, ts, ts⟩)) =
        .ok (objSet files f ⟨s.content, ts, ts⟩) := rfl
    rw [openFile_found hs2 (lookupFS_objSet_self files f _)]
    refine ⟨rfl, rfl, rfl, ?_⟩
    show (setFileName _ f).currentFileName = some f
    rw [setFileName_set hfne (by rw [htrim]; exact hfne)]
    dsimp only
    rw [htrim]
  · intro s name files hs hl
    exact openFile_absent hs hl

/-- Witness for C5 at a concrete state: saving "x" under "f" on an empty
store and reopening "f", plus a no-op open of an absent name. -/
theorem save_then_open_spec_witness :
    ((openFile
        (save
          { mgr := { currentFileName := some "f", timer := none },
            content := "x", storage := .missing, liveTimers := [],
            nextTimerId := 0 } 1).1 "f").1.content = "x" ∧
     (openFile
        (save
          { mgr := { currentFileName := some "f", timer := none },
            content := "x", storage := .missing, liveTimers := [],
            nextTimerId := 0 } 1).1 "f").1.mgr.currentFileName = some "f") ∧
    openFile
      { mgr := { currentFileName := some "f", timer := none },
        content := "x", storage := .good [], liveTimers := [],
        nextTimerId := 0 } "nope" =
      ({ mgr := { currentFileName := some "f", timer := none },
         content := "x", storage := .good [], liveTimers := [],
         nextTimerId := 0 }, .ok ()) :=
  ⟨⟨(save_then_open_spec.1
      { mgr := { currentFileName := some "f", timer := none },
        content := "x", storage := .missing, liveTimers := [],
        nextTimerId := 0 } 1 "x" "f" [] rfl (by decide) rfl (by decide)
      (by decide) rfl).2.2.1,
    (save_then_open_spec.1
      { mgr := { currentFileName := some "f", timer := none },
        content := "x", storage := .missing, liveTimers := [],
        nextTimerId := 0 } 1 "x" "f" [] rfl (by decide) rfl (by decide)
      (by decide) rfl).2.2.2⟩,
   save_then_open_spec.2
     { mgr := { currentFileName := some "f", timer := none },
       content := "x", storage := .good [], liveTimers := [],
       nextTimerId := 0 } "nope" [] rfl rfl⟩

/-- C10: when both the source and the target name already hold records and
the names differ, renameFile succeeds, returning true with no error
indication, and silently replaces the record under the target name by the
source record (saveTime refreshed); the source key is gone. -/
theorem renameFile_target_overwrite_spec (s : SysState) (ts : Nat)
    (oldName newName : String) (r1 r2 : FileRecord) (files : FileStore)
    (hs : getSavedFiles s.storage = .ok files)
    (h1 : lookupFS files oldName = some r1)
    (h2 : lookupFS files newName = some r2)
    (hne : oldName ≠ newName) :
    (renameFile s ts oldName newName).2 = .ok true ∧
    (renameFile s ts oldName newName).1.storage =
      .good (objDelete (objSet files newName { r1 with saveTime := ts })
        oldName) ∧
    lookupFS (objDelete (objSet files newName { r1 with saveTime := ts })
      oldName) newName = some { r1 with saveTime := ts } ∧
    lookupFS (objDelete (objSet files newName { r1 with saveTime := ts })
      oldName) oldName = none := by
  rw [renameFile_success ts hne hs h1]
  refine ⟨rfl, rfl, ?_, lookupFS_objDelete_self _ _⟩
  rw [lookupFS_objDelete_ne _ _ _ (Ne.symm hne)]
  exact lookupFS_objSet_self _ _ _

/-- Witness for C10 at a concrete two-record store. -/
theorem renameFile_target_overwrite_spec_witness :
    (renameFile
      { mgr := { currentFileName := some "a", timer := none }, content := "x",
        storage := .good
          [("a", { content := "ha", saveTime := 0, lastOpenTime := 0 }),
           ("b", { content := "hb", saveTime := 1, lastOpenTime := 1 })],
        liveTimers := [], nextTimerId := 0 } 9 "a" "b").2 = .ok true ∧
    lookupFS
      (objDelete
        (objSet
          [("a", { content := "ha", saveTime := 0, lastOpenTime := 0 }),
           ("b", { content := "hb", saveTime := 1, lastOpenTime := 1 })]
          "b" { content := "ha", saveTime := 9, lastOpenTime := 0 }) "a")
      "b" = some { content := "ha", saveTime := 9, lastOpenTime := 0 } :=
  ⟨(renameFile_target_overwrite_spec
      { mgr := { currentFileName := some "a", timer := none }, content := "x",
        storage := .good
          [("a", { content := "ha", saveTime := 0, lastOpenTime := 0 }),
           ("b", { content := "hb", saveTime := 1, lastOpenTime := 1 })],
        liveTimers := [], nextTimerId := 0 } 9 "a" "b"
      { content := "ha", saveTime := 0, lastOpenTime := 0 }
      { content := "hb", saveTime := 1, lastOpenTime := 1 }
      [("a", { content := "ha", saveTime := 0, lastOpenTime := 0 }),
       ("b", { content := "hb", saveTime := 1, lastOpenTime := 1 })]
      rfl rfl (by decide) (by decide)).1,
   (renameFile_target_overwrite_spec
      { mgr := { currentFileName := some "a", timer := none }, content := "x",
        storage := .good
          [("a", { content := "ha", saveTime := 0, lastOpenTime := 0 }),
           ("b", { content := "hb", saveTime := 1, lastOpenTime := 1 })],
        liveTimers := [], nextTimerId := 0 } 9 "a" "b"
      { content := "ha", saveTime := 0, lastOpenTime := 0 }
      { content := "hb", saveTime := 1, lastOpenTime := 1 }
      [("a", { content := "ha", saveTime := 0, lastOpenTime := 0 }),
       ("b", { content := "hb", saveTime := 1, lastOpenTime := 1 })]
      rfl rfl (by decide) (by decide)).2.2.1⟩

/-- Counterexample for C7: with currentFileName unset (null), a successful
rename still mutates it — the comparison in renameFile goes through
getFileName(), which lazily assigns the generated default name as a side
effect — contradicting the claim that it stays unchanged whenever it did
not equal oldName. -/
theorem renameFile_currentFileName_counterexample :
    (renameFile
        { mgr := { currentFileName := none, timer := none }, content := "c",
          storage := .good
            [("a", { content := "h", saveTime := 0, lastOpenTime := 0 })],
          liveTimers := [], nextTimerId := 0 } 5 "a" "b").2 = .ok true ∧
    ({ mgr := { currentFileName := none, timer := none }, content := "c",
       storage := .good
         [("a", { content := "h", saveTime := 0, lastOpenTime := 0 })],
       liveTimers := [], nextTimerId := 0 } : SysState).mgr.currentFileName =
      none ∧
    (renameFile
        { mgr := { currentFileName := none, timer := none }, content := "c",
          storage := .good
            [("a", { content := "h", saveTime := 0, lastOpenTime := 0 })],
          liveTimers := [], nextTimerId := 0 } 5 "a" "b").1.mgr.currentFileName =
      some (genName 5) := by
  refine ⟨?_, rfl, ?_⟩ <;> decide

/-- C7 (amended): renameFile leaves the manager untouched on every failed
rename; on a successful rename it rebinds currentFileName to newName when
it equaled oldName, leaves it alone when it names a different file, and —
the one divergence from the original claim — when it was unset (null) it
comes out bound to the lazily generated default name. -/
theorem renameFile_currentFileName_amended (s : SysState) (ts : Nat)
    (oldName newName : String) (files : FileStore)
    (hs : getSavedFiles s.storage = .ok files) :
    ((oldName = newName ∨ lookupFS files oldName = none) →
        (renameFile s ts oldName newName).1.mgr = s.mgr) ∧
    (∀ r, lookupFS files oldName = some r → oldName ≠ newName →
      ((s.mgr.currentFileName = some oldName → newName ≠ "" →
          jsTrim newName = newName →
          (renameFile s ts oldName newName).1.mgr.currentFileName =
            some newName) ∧
       (∀ g, s.mgr.currentFileName = some g → g ≠ oldName →
          (renameFile s ts oldName newName).1.mgr.currentFileName = some g) ∧
       (s.mgr.currentFileName = none → genName ts ≠ oldName →
          (renameFile s ts oldName newName).1.mgr.currentFileName =
            some (genName ts)))) := by
  constructor
  · intro h
    rcases h with h | h
    · rw [renameFile_same ts h]
    · by_cases he : oldName = newName
      · rw [renameFile_same ts he]
      · rw [renameFile_absent ts he hs h]
  · intro r hl hne
    refine ⟨?_, ?_, ?_⟩
    · intro hcf hn1 hn2
      rw [renameFile_success ts hne hs hl]
      show (if (getFileName s.mgr ts).1 = oldName
            then setFileName (getFileName s.mgr ts).2 newName
            else (getFileName s.mgr ts).2).currentFileName = some newName
      rw [getFileName_of_some ts hcf]
      dsimp only
      rw [if_pos rfl, setFileName_set hn1 (by rw [hn2]; exact hn1)]
      dsimp only
      rw [hn2]
    · intro g hg hgne
      rw [renameFile_success ts hne hs hl]
      show (if (getFileName s.mgr ts).1 = oldName
            then setFileName (getFileName s.mgr ts).2 newName
            else (getFileName s.mgr ts).2).currentFileName = some g
      rw [getFileName_of_some ts hg]
      dsimp only
      rw [if_neg hgne]
      exact hg
    · intro hnone hgen
      rw [renameFile_success ts hne hs hl]
      show (if (getFileName s.mgr ts).1 = oldName
            then setFileName (getFileName s.mgr ts).2 newName
            else (getFileName s.mgr ts).2).currentFileName = some (genName ts)
      rw [getFileName_of_none ts hnone]
      dsimp only
      rw [if_neg hgen]

/-- Witness for C7 (amended): renaming the current file rebinds the
manager to the new name. -/
theorem renameFile_currentFileName_amended_witness :
    (renameFile
        { mgr := { currentFileName := some "a", timer := none },
          content := "c",
          storage := .good
            [("a", { content := "h", saveTime := 0, lastOpenTime := 0 })],
          liveTimers := [], nextTimerId := 0 } 7 "a" "b").1.mgr.currentFileName =
      some "b" :=
  ((renameFile_currentFileName_amended
      { mgr := { currentFileName := some "a", timer := none },
        content := "c",
        storage := .good
          [("a", { content := "h", saveTime := 0, lastOpenTime := 0 })],
        liveTimers := [], nextTimerId := 0 } 7 "a" "b"
      [("a", { content := "h", saveTime := 0, lastOpenTime := 0 })] rfl).2
    { content := "h", saveTime := 0, lastOpenTime := 0 } rfl
    (by decide)).1 rfl (by decide) (by decide)

/-- Counterexample for C8: when the immediate save() inside start() throws
(corrupt blob, non-empty content), the new interval is never armed, so two
successive start() calls leave zero live timers, not exactly one. -/
theorem start_twice_counterexample :
    (start
        (start
          { mgr := { currentFileName := none, timer := none },
            content := "x", storage := .corrupt, liveTimers := [],
            nextTimerId := 0 } 0).1 0).1.liveTimers.length ≠ 1 := by
  decide

/-- C8 (amended): at most one timer is ever live — start(), stop(), and
the timer tick all preserve the zero-or-one-timer invariant; start()
clears the prior timer first and, provided the immediate save() does not
throw, arms exactly one fresh timer, so two successive start() calls leave
exactly one live timer; when the save throws, the prior timer is already
cleared and no new one is armed.  stop() cancels the timer, leaves no live
timer, and is a no-op when the handle is already null. -/
theorem timer_lifecycle_amended :
    (∀ (s : SysState) (ts : Nat), timerInv s → timerInv (start s ts).1) ∧
    (∀ (s : SysState), timerInv s → timerInv (stop s)) ∧
    (∀ (s : SysState) (ts : Nat), timerInv s → timerInv (tick s ts).1) ∧
    (∀ (s : SysState) (ts ts2 : Nat), timerInv s → saveOk s →
        (start (start s ts).1 ts2).1.liveTimers.length = 1) ∧
    (∀ (s : SysState), timerInv s →
        (stop s).mgr.timer = none ∧ (stop s).liveTimers = []) ∧
    (∀ (s : SysState), s.mgr.timer = none → stop s = s) := by
  refine ⟨fun s ts h => timerInv_start h ts,
          fun s h => timerInv_stop h,
          fun s ts h => timerInv_tick h ts, ?_,
          fun s h => stop_clears h,
          fun s h => stop_noop h⟩
  intro s ts ts2 h hok
  rw [start_live_of_ok (timerInv_start h ts) (saveOk_start hok ts) ts2]
  rfl

/-- Witness for C8 (amended): on a healthy state, two start() calls leave
exactly one live timer. -/
theorem timer_lifecycle_amended_witness :
    (start
        (start
          { mgr := { currentFileName := none, timer := none },
            content := "x", storage := .good [], liveTimers := [],
            nextTimerId := 0 } 0).1 1).1.liveTimers.length = 1 :=
  timer_lifecycle_amended.2.2.2.1
    { mgr := { currentFileName := none, timer := none },
      content := "x", storage := .good [], liveTimers := [],
      nextTimerId := 0 } 0 1 (Or.inl rfl) (Or.inr (by decide))

/-- C9: the invariant that currentFileName is unset or a non-empty,
non-whitespace-only string holds for a freshly constructed manager and is
preserved by every operation; setFileName trims its input and ignores
blank names, otherwise rebinding to the trimmed name; getFileName assigns
the non-blank generated default when unset. -/
theorem currentFileName_invariant_spec :
    nameInv initialManager ∧
    (∀ (m : ManagerState) (name : String),
        name = "" ∨ jsTrim name = "" → setFileName m name = m) ∧
    (∀ (m : ManagerState) (name : String), name ≠ "" → jsTrim name ≠ "" →
        (setFileName m name).currentFileName = some (jsTrim name)) ∧
    (∀ (m : ManagerState) (name : String), nameInv m →
        nameInv (setFileName m name)) ∧
    (∀ (m : ManagerState) (ts : Nat), nameInv m →
        nameInv (getFileName m ts).2) ∧
    (∀ (m : ManagerState) (ts : Nat), m.currentFileName = none →
        (getFileName m ts).2.currentFileName = some (genName ts) ∧
        (getFileName m ts).1 = genName ts ∧ nonBlank (genName ts)) ∧
    (∀ (s : SysState) (ts : Nat), nameInv s.mgr →
        nameInv (save s ts).1.mgr) ∧
    (∀ (s : SysState) (ts : Nat), nameInv s.mgr →
        nameInv (start s ts).1.mgr) ∧
    (∀ (s : SysState), nameInv s.mgr → nameInv (stop s).mgr) ∧
    (∀ (s : SysState) (ts : Nat), nameInv s.mgr →
        nameInv (tick s ts).1.mgr) ∧
    (∀ (s : SysState) (name : String), nameInv s.mgr →
        nameInv (openFile s name).1.mgr) ∧
    (∀ (s : SysState) (ts : Nat) (fileName : Option String), nameInv s.mgr →
        nameInv (createNewFile s ts fileName).1.mgr) ∧
    (∀ (s : SysState) (ts : Nat) (oldName newName : String), nameInv s.mgr →
        nameInv (renameFile s ts oldName newName).1.mgr) := by
  refine ⟨?_, ?_, ?_,
          fun m name h => nameInv_setFileName h name,
          fun m ts h => nameInv_getFileName h ts, ?_,
          fun s ts h => nameInv_save h ts,
          fun s ts h => nameInv_start h ts,
          fun s h => nameInv_stop h,
          fun s ts h => nameInv_tick h ts,
          fun s name h => nameInv_openFile h name,
          fun s ts fileName h => nameInv_createNewFile h ts fileName,
          fun s ts a b h => nameInv_renameFile h ts a b⟩
  · intro v hv
    cases hv
  · intro m name h
    exact setFileName_noop h
  · intro m name h1 h2
    rw [setFileName_set h1 h2]
  · intro m ts h
    rw [getFileName_of_none ts h]
    exact ⟨rfl, rfl, nonBlank_genName ts⟩

/-- Witness for C9: a blank name is ignored, a normal name is rebound, and
the invariant holds at a concrete manager state. -/
theorem currentFileName_invariant_spec_witness :
    setFileName { currentFileName := some "a", timer := none } "   " =
      { currentFileName := some "a", timer := none } ∧
    (setFileName { currentFileName := some "a", timer := none }
      " b ").currentFileName = some "b" ∧
    nameInv (setFileName { currentFileName := some "a", timer := none } "b") :=
  ⟨currentFileName_invariant_spec.2.1
      { currentFileName := some "a", timer := none } "   " (Or.inr (by decide)),
   by
    rw [currentFileName_invariant_spec.2.2.1
      { currentFileName := some "a", timer := none } " b " (by decide)
      (by decide)]
    decide,
   currentFileName_invariant_spec.2.2.2.1
      { currentFileName := some "a", timer := none } "b"
      (by intro v hv; cases hv; decide)⟩
